import Mathlib

/-!
Verification of the device-agent gateway core: a shallow embedding of the
frame codec, the HMAC authenticator with nonce store, the session manager,
the per-connection reader paths of the TCP server, and the ACK waiter,
together with theorems settling the specification claims about them.

Go maps are embedded as association lists with unique keys (insert removes
any previous binding); mutable shared objects (session close flags, ACK
channels) are embedded as explicit state threaded through the operations.
-/

namespace DeviceAgent

section Assoc

variable {κ : Type} [DecidableEq κ] {β : Type}

/-- Lookup in an association list, mirroring a Go map read. -/
def alookup (k : κ) : List (κ × β) → Option β
  | [] => none
  | (k', v) :: rest => if k' = k then some v else alookup k rest

/-- Remove every binding of a key, mirroring Go `delete(m, k)`. -/
def aremove (k : κ) : List (κ × β) → List (κ × β)
  | [] => []
  | (k', v) :: rest => if k' = k then aremove k rest else (k', v) :: aremove k rest

/-- Insert a binding, replacing any previous one, mirroring Go `m[k] = v`. -/
def ainsert (k : κ) (v : β) (l : List (κ × β)) : List (κ × β) :=
  (k, v) :: aremove k l

end Assoc

/-! ## internal/security: Authenticator and MemoryNonceStore -/

namespace Security

/-- `MemoryNonceStore`: maps a nonce to its expiry instant (unix seconds).
`AddNonce(nonce, ttl)` stores `time.Now().Add(ttl)`; `HasNonce` only
checks presence. -/
structure MemoryNonceStore where
  nonces : List (String × Int)
deriving DecidableEq, Repr

/-- `MemoryNonceStore.HasNonce`: presence check, ignoring expiry. -/
def hasNonce (m : MemoryNonceStore) (nonce : String) : Bool :=
  (alookup nonce m.nonces).isSome

/-- `MemoryNonceStore.AddNonce`: records expiry `now + ttl` (always succeeds). -/
def addNonce (m : MemoryNonceStore) (nonce : String) (now ttl : Int) : MemoryNonceStore :=
  ⟨ainsert nonce (now + ttl) m.nonces⟩

/-- `Authenticator` configuration: appid-to-key map and the time window in
seconds. The nonce store is threaded explicitly as state. -/
structure Authenticator where
  keys : List (String × String)
  timeWindowSec : Int
deriving DecidableEq, Repr

/-- The `abs` helper from internal/security. -/
def goAbs (x : Int) : Int :=
  if x < 0 then -x else x

/-- `Authenticator.calculateSignature`: HMAC-SHA256 over
`appid|sn|ts|nonce`, hex encoded. The MAC itself is abstracted as a
function `mac key payload`; everything proved below holds for every MAC. -/
def calculateSignature (mac : String → String → String)
    (appid sn : String) (ts : Int) (nonce key : String) : String :=
  mac key (appid ++ "|" ++ sn ++ "|" ++ toString ts ++ "|" ++ nonce)

/-- `Authenticator.verifyTimestamp`: rejects when `|now - ts| > timeWindowSec`. -/
def verifyTimestamp (a : Authenticator) (now ts : Int) : Option String :=
  if goAbs (now - ts) > a.timeWindowSec then some "timestamp out of window" else none

/-- `Authenticator.verifyNonce`: reject a seen nonce, otherwise insert it
with `ttl = timeWindowSec * 2` seconds (the in-memory store never fails). -/
def verifyNonce (a : Authenticator) (store : MemoryNonceStore) (now : Int)
    (nonce : String) : Option String × MemoryNonceStore :=
  if hasNonce store nonce then
    (some "nonce already used", store)
  else
    (none, addNonce store nonce now (a.timeWindowSec * 2))

/-- `Authenticator.VerifySignature`: key lookup, then timestamp window,
then nonce check-and-insert, then constant-time signature comparison.
Returns the error (or `none` on success) and the updated nonce store. -/
def verifySignature (mac : String → String → String) (a : Authenticator)
    (store : MemoryNonceStore) (now : Int)
    (appid sn : String) (ts : Int) (nonce sign : String) :
    Option String × MemoryNonceStore :=
  match alookup appid a.keys with
  | none => (some "invalid appid", store)
  | some key =>
    match verifyTimestamp a now ts with
    | some e => (some e, store)
    | none =>
      match verifyNonce a store now nonce with
      | (some e, store') => (some e, store')
      | (none, store') =>
        if sign = calculateSignature mac appid sn ts nonce key then
          (none, store')
        else
          (some "invalid signature", store')

end Security

/-! ## internal/tcpserver: frame codec -/

namespace Tcpserver

/-- `MaxMessageSize` from the codec: 1 MiB. -/
def MaxMessageSize : Nat := 1024 * 1024

/-- The wire `Message`: version byte, type byte, payload bytes. Bytes are
embedded as `Nat` values below 256. -/
structure Message where
  version : Nat
  type : Nat
  payload : List Nat
deriving DecidableEq, Repr

/-- `binary.BigEndian.PutUint32` of `uint32(n)`: four bytes, most
significant first, after truncation modulo 2^32. -/
def be32encode (n : Nat) : List Nat :=
  let m := n % 2 ^ 32
  [m / 2 ^ 24 % 256, m / 2 ^ 16 % 256, m / 2 ^ 8 % 256, m % 256]

/-- `binary.BigEndian.Uint32` of four bytes. -/
def be32decode (a b c d : Nat) : Nat :=
  a * 2 ^ 24 + b * 2 ^ 16 + c * 2 ^ 8 + d

/-- `WriteMessage`: 4-byte big-endian length prefix followed by
version byte, type byte, payload. -/
def writeMessage (msg : Message) : List Nat :=
  let msgBuf := msg.version :: msg.type :: msg.payload
  be32encode msgBuf.length ++ msgBuf

/-- `ReadMessage`: read the 4-byte length, reject oversize frames, read
the body (a short stream is a read error), reject bodies shorter than
2 bytes, split version/type/payload, reject versions other than 1. -/
def readMessage (stream : List Nat) : Except String Message :=
  match stream with
  | a :: b :: c :: d :: rest =>
    let length := be32decode a b c d
    if length > MaxMessageSize then
      Except.error ("message too large: " ++ toString length ++ " bytes")
    else if rest.length < length then
      Except.error "read message: unexpected EOF"
    else
      let msgBuf := rest.take length
      if length < 2 then
        Except.error "message too short"
      else
        let msg : Message := ⟨msgBuf.getD 0 0, msgBuf.getD 1 0, msgBuf.drop 2⟩
        if msg.version ≠ 1 then
          Except.error ("unsupported protocol version: " ++ toString msg.version)
        else
          Except.ok msg
  | _ => Except.error "read length: unexpected EOF"

/-- `true` when the decoder rejected the frame. -/
def isErr (e : Except String Message) : Bool :=
  match e with
  | .error _ => true
  | .ok _ => false

/-! ## internal/tcpserver: Session and SessionManager

The manager-relevant part of a `Session` is its id, SN, appid and
`LastPing`. The shared mutable close flag (`closeOnce`/`closeCh`) is
embedded as the set `closedIDs` in the manager state, keyed by the
session's unique id. -/

structure Session where
  id : String
  sn : String
  appid : String
  lastPing : Int
deriving DecidableEq, Repr

/-- The state of a `SessionManager` together with the close flags of all
session objects it has ever seen. -/
structure SMState where
  sessions : List (String × Session)
  snToID : List (String × String)
  closedIDs : List String
deriving DecidableEq, Repr

def smEmpty : SMState := ⟨[], [], []⟩

/-- `Session.Close`: idempotent via `sync.Once`; sets the close flag. -/
def closeSession (sid : String) (st : SMState) : SMState :=
  if sid ∈ st.closedIDs then st else { st with closedIDs := sid :: st.closedIDs }

/-- `Session.IsClosed` for the session object with this id. -/
def isClosed (sid : String) (st : SMState) : Bool :=
  sid ∈ st.closedIDs

/-- `SessionManager.Add`: when the SN is non-empty and already indexed,
close the prior holder and delete it from the id index, then point the
SN index at the new session; always insert into the id index. -/
def smAdd (s : Session) (st : SMState) : SMState :=
  let st1 :=
    if s.sn = "" then st
    else
      let st' :=
        match alookup s.sn st.snToID with
        | some oldID =>
          match alookup oldID st.sessions with
          | some _ => { closeSession oldID st with sessions := aremove oldID st.sessions }
          | none => st
        | none => st
      { st' with snToID := ainsert s.sn s.id st'.snToID }
  { st1 with sessions := ainsert s.id s st1.sessions }

/-- `SessionManager.Remove`: close the session, delete it from the id
index, and delete its SN from the SN index; safe if absent. -/
def smRemove (sid : String) (st : SMState) : SMState :=
  match alookup sid st.sessions with
  | some s =>
    let st1 := { closeSession sid st with sessions := aremove sid st.sessions }
    if s.sn ≠ "" then { st1 with snToID := aremove s.sn st1.snToID } else st1
  | none => st

/-- `SessionManager.Get`: plain id lookup (no closed filter). -/
def smGet (sid : String) (st : SMState) : Option Session :=
  alookup sid st.sessions

/-- `SessionManager.GetBySN`: SN index, then id index, filtering sessions
whose close flag is set. -/
def smGetBySN (sn : String) (st : SMState) : Option Session :=
  match alookup sn st.snToID with
  | some sid =>
    match alookup sid st.sessions with
    | some s => if isClosed s.id st then none else some s
    | none => none
  | none => none

/-- `SessionManager.GetOnlineDevices`: the keys of the SN index. -/
def smGetOnlineDevices (st : SMState) : List String :=
  st.snToID.map Prod.fst

/-- `Session.IsExpired`: `time.Since(LastPing) > timeout`. -/
def sessionExpired (now timeout : Int) (s : Session) : Bool :=
  now - s.lastPing > timeout

/-- `SessionManager.CleanupExpired`: collect the expired ids, then close
and delete each one from both indices (the per-id body is exactly
`Remove`); returns the count. -/
def smCleanupExpired (timeout now : Int) (st : SMState) : SMState × Nat :=
  let expired := (st.sessions.filter (fun p => sessionExpired now timeout p.2)).map Prod.fst
  (expired.foldl (fun acc sid => smRemove sid acc) st, expired.length)

/-- `SessionManager.Shutdown`: close every session and clear both indices. -/
def smShutdown (st : SMState) : SMState :=
  let st1 := st.sessions.foldl (fun acc p => closeSession p.2.id acc) st
  { st1 with sessions := [], snToID := [] }

/-- States of the manager reachable from the empty manager through its
mutating operations (each runs atomically under the manager's lock). -/
inductive SMReachable : SMState → Prop
  | init : SMReachable smEmpty
  | add (s : Session) {st : SMState} : SMReachable st → SMReachable (smAdd s st)
  | remove (sid : String) {st : SMState} : SMReachable st → SMReachable (smRemove sid st)
  | cleanup (timeout now : Int) {st : SMState} :
      SMReachable st → SMReachable (smCleanupExpired timeout now st).1
  | close (sid : String) {st : SMState} : SMReachable st → SMReachable (closeSession sid st)
  | shutdown {st : SMState} : SMReachable st → SMReachable (smShutdown st)

/-- The SN-index coupling invariant: every session in the id index with a
non-empty SN is pointed to by the SN index. -/
def Coupled (st : SMState) : Prop :=
  ∀ sid s, alookup sid st.sessions = some s → s.sn ≠ "" →
    alookup s.sn st.snToID = some sid

/-- At most one session per non-empty SN in the id index. -/
def AtMostOnePerSN (st : SMState) : Prop :=
  ∀ sid₁ s₁ sid₂ s₂, alookup sid₁ st.sessions = some s₁ →
    alookup sid₂ st.sessions = some s₂ → s₁.sn = s₂.sn → s₁.sn ≠ "" → sid₁ = sid₂

/-! ## internal/tcpserver: ACKWaiter

The waiter table maps a cmd_id to a buffered channel of capacity one.
Channels outlive their table entry (`Wait` keeps its channel after the
entry is deleted), so channels live in a heap indexed by `Nat` refs.
`panicked` records a Go runtime panic: closing a closed (or nil) channel,
or sending on a closed channel. -/

structure ACKMessage where
  cmdID : String
  status : String
  detail : String
deriving DecidableEq, Repr

/-- A buffered channel of capacity one: its buffer slot and close flag. -/
structure ChanSt where
  buf : Option ACKMessage
  closed : Bool
deriving DecidableEq, Repr

structure AWState where
  waiters : List (String × Nat)
  chans : List (Nat × ChanSt)
  nextRef : Nat
  panicked : Bool
deriving DecidableEq, Repr

def awEmpty : AWState := ⟨[], [], 0, false⟩

/-- `close(ch)`: panics when the channel is already closed (or nil). -/
def chanClose (r : Nat) (st : AWState) : AWState :=
  match alookup r st.chans with
  | some c =>
    if c.closed then { st with panicked := true }
    else { st with chans := ainsert r { c with closed := true } st.chans }
  | none => { st with panicked := true }

/-- `select { case ch <- v: default: }`: panics on a closed channel,
fills an empty buffer, and drops the value when the buffer is full. -/
def chanTrySend (r : Nat) (v : ACKMessage) (st : AWState) : AWState :=
  match alookup r st.chans with
  | some c =>
    if c.closed then { st with panicked := true }
    else
      match c.buf with
      | none => { st with chans := ainsert r { c with buf := some v } st.chans }
      | some _ => st
  | none => st

/-- The prefix of `ACKWaiter.Wait` before blocking: allocate the buffered
channel and insert it into the waiter table; returns the channel ref. -/
def waitRegister (cmdID : String) (st : AWState) : Nat × AWState :=
  let r := st.nextRef
  (r, { st with
          chans := ainsert r ⟨none, false⟩ st.chans,
          waiters := ainsert cmdID r st.waiters,
          nextRef := r + 1 })

/-- The deferred exit path of `ACKWaiter.Wait`: delete the table entry,
then close the channel (unconditionally). -/
def waitExit (cmdID : String) (r : Nat) (st : AWState) : AWState :=
  chanClose r { st with waiters := aremove cmdID st.waiters }

/-- `ACKWaiter.Notify`: look the channel up in the table; when present,
attempt a non-blocking send; an unknown cmd_id is a no-op. -/
def notify (cmdID : String) (v : ACKMessage) (st : AWState) : AWState :=
  match alookup cmdID st.waiters with
  | some r => chanTrySend r v st
  | none => st

/-- `ACKWaiter.Cancel`: when present, close the channel and delete the
table entry; an unknown cmd_id is a no-op. -/
def cancel (cmdID : String) (st : AWState) : AWState :=
  match alookup cmdID st.waiters with
  | some r => { chanClose r st with waiters := aremove cmdID st.waiters }
  | none => st

/-- External operations that can run while a `Wait` is blocked. -/
inductive AWEvent
  | notify (cmdID : String) (ack : ACKMessage)
  | cancel (cmdID : String)
deriving DecidableEq, Repr

def applyEvent (st : AWState) : AWEvent → AWState
  | .notify c v => notify c v st
  | .cancel c => cancel c st

def applyEvents (st : AWState) (es : List AWEvent) : AWState :=
  es.foldl applyEvent st

/-- What the `select` inside `Wait` observes on its channel at the
deadline: a buffered value is delivered even from a closed channel; a
closed empty channel yields the zero value `none`; `none` at the outer
level means the channel is still open and empty, so the timeout fires. -/
def waitResolve (r : Nat) (st : AWState) : Option (Option ACKMessage) :=
  match alookup r st.chans with
  | some c =>
    match c.buf with
    | some v => some (some v)
    | none => if c.closed then some none else none
  | none => none

/-- One complete `ACKWaiter.Wait` call: register, let the events that
arrive before the deadline run, resolve the select (a still-blocked wait
returns the timeout error), then run the deferred exit path.
`Except.ok none` is Go's `(nil, nil)` return. -/
def waitRun (cmdID : String) (st₀ : AWState) (es : List AWEvent) :
    Except String (Option ACKMessage) × AWState :=
  let p := waitRegister cmdID st₀
  let st₂ := applyEvents p.2 es
  let res :=
    match waitResolve p.1 st₂ with
    | some (some v) => Except.ok (some v)
    | some none => Except.ok none
    | none => Except.error ("ack timeout for command " ++ cmdID)
  (res, waitExit cmdID p.1 st₂)

/-- The first value a `Notify` for this cmd_id carries in the event list. -/
def firstNotifyFor (c : String) : List AWEvent → Option ACKMessage
  | [] => none
  | .notify c' v :: rest => if c' = c then some v else firstNotifyFor c rest
  | .cancel _ :: rest => firstNotifyFor c rest

/-- Well-formedness of a waiter state: every ref in the table was
allocated, hence is below `nextRef`. -/
def AWWF (st : AWState) : Prop :=
  ∀ c r, alookup c st.waiters = some r → r < st.nextRef

/-- Every channel referenced by the waiter table is open. -/
def OpenW (st : AWState) : Prop :=
  ∀ c r, alookup c st.waiters = some r → ∃ b, alookup r st.chans = some ⟨b, false⟩

/-- `true` when the event list contains no `Cancel` calls (as wired in
the gateway: nothing ever calls `Cancel`). -/
def notifyOnly : List AWEvent → Bool
  | [] => true
  | .notify _ _ :: rest => notifyOnly rest
  | .cancel _ :: _ => false

/-! ## internal/tcpserver: Server per-connection reader paths

`Server.handleConnection` loops: read a frame; on a read error it
returns (its deferred `session.Close()` then closes the connection, and
nothing else happens); on a handler error it sends an `Err` frame and
keeps looping. The two loop-body paths that the claims are about are
embedded as one function each. -/

structure AuthMessage where
  appid : String
  sn : String
  ts : Int
  nonce : String
  sign : String
  meta : List (String × String)
deriving DecidableEq, Repr

structure AuthOKMessage where
  success : Bool
  message : String
deriving DecidableEq, Repr

structure ErrorMessage where
  code : Int
  message : String
deriving DecidableEq, Repr

/-- Everything one loop iteration of `handleConnection` on an `Auth`
frame produces: the `AuthOK` reply sent by `handleAuth`, the `Err` frame
`handleConnection` sends when the handler returned an error, whether the
reader returns (ending the connection), and the updated session object,
manager and nonce store. -/
structure AuthIterResult where
  authReply : AuthOKMessage
  errReply : Option ErrorMessage
  returns : Bool
  session : Session
  sm : SMState
  store : Security.MemoryNonceStore
deriving DecidableEq, Repr

/-- One `handleConnection` loop iteration whose read yielded an `Auth`
frame with a well-formed payload: `handleAuth` verifies the signature;
on failure it sends `AuthOK{false, reason}` and returns the error
`auth failed: reason`, which `handleConnection` answers with an
`Err{500}` frame before looping again; on success it populates the
session, adds it to the manager and sends `AuthOK{true}`. -/
def connIterAuth (mac : String → String → String) (a : Security.Authenticator)
    (store : Security.MemoryNonceStore) (now : Int)
    (sess : Session) (auth : AuthMessage) (sm : SMState) : AuthIterResult :=
  match Security.verifySignature mac a store now auth.appid auth.sn auth.ts auth.nonce auth.sign with
  | (some e, store') =>
    { authReply := ⟨false, e⟩
      errReply := some ⟨500, "auth failed: " ++ e⟩
      returns := false
      session := sess
      sm := sm
      store := store' }
  | (none, store') =>
    let sess' := { sess with sn := auth.sn, appid := auth.appid }
    { authReply := ⟨true, "authenticated"⟩
      errReply := none
      returns := false
      session := sess'
      sm := smAdd sess' sm
      store := store' }

/-- One `handleConnection` loop iteration whose read failed (deadline,
EOF or framing violation): the reader returns and its deferred
`session.Close()` runs; the manager's indices are not touched. -/
def connIterReadErr (sess : Session) (sm : SMState) : SMState × Bool :=
  (closeSession sess.id sm, true)

end Tcpserver

/-! ## Association list lemmas -/

section AssocLemmas

variable {κ : Type} [DecidableEq κ] {β : Type} {k k' : κ} {v : β} {l : List (κ × β)}

@[simp] theorem alookup_nil : alookup k ([] : List (κ × β)) = none := rfl

theorem alookup_aremove_self : alookup k (aremove k l) = none := by
  induction l with
  | nil => rfl
  | cons p rest ih =>
    obtain ⟨a, b⟩ := p
    by_cases h : a = k <;> simp [aremove, alookup, h, ih]

theorem alookup_aremove_ne (h : k' ≠ k) : alookup k (aremove k' l) = alookup k l := by
  induction l with
  | nil => rfl
  | cons p rest ih =>
    obtain ⟨a, b⟩ := p
    by_cases ha : a = k'
    · subst ha
      simp [aremove, alookup, h, ih]
    · by_cases hb : a = k <;> simp [aremove, alookup, ha, hb, ih, Ne.symm h]

@[simp] theorem alookup_ainsert_self : alookup k (ainsert k v l) = some v := by
  simp [ainsert, alookup]

theorem alookup_ainsert_ne (h : k' ≠ k) : alookup k (ainsert k' v l) = alookup k l := by
  simp [ainsert, alookup, h, alookup_aremove_ne h]

theorem mem_keys_of_alookup (h : alookup k l = some v) : k ∈ l.map Prod.fst := by
  induction l with
  | nil => simp [alookup] at h
  | cons p rest ih =>
    obtain ⟨a, b⟩ := p
    by_cases ha : a = k
    · simp [ha]
    · simp [alookup, ha] at h
      simp [ih h]

end AssocLemmas

/-! ## Claim theorems -/

open Security Tcpserver

/-- Helper: the source's `abs` agrees with the integer absolute value. -/
theorem goAbs_eq_abs (x : Int) : goAbs x = |x| := by
  by_cases h : x < 0
  · simp [goAbs, h, abs_of_neg h]
  · simp [goAbs, h, abs_of_nonneg (le_of_not_lt h)]

/-- Claim C2: with a known appid, `VerifySignature` checks the timestamp
window before consulting the nonce store (a tuple failing both is
rejected with "timestamp out of window" and the store is untouched);
it inserts the nonce with ttl `2 × time_window_sec` before comparing the
signature, so an in-window attempt with a fresh nonce and an invalid
signature still consumes the nonce; and a second presentation of the
same valid tuple is rejected with "nonce already used". -/
theorem auth_check_order (mac : String → String → String) (a : Authenticator)
    (store : MemoryNonceStore) (now now₂ ts : Int)
    (appid sn nonce sign key : String)
    (hkey : alookup appid a.keys = some key) :
    (goAbs (now - ts) > a.timeWindowSec →
      verifySignature mac a store now appid sn ts nonce sign
        = (some "timestamp out of window", store)) ∧
    (goAbs (now - ts) ≤ a.timeWindowSec →
      hasNonce store nonce = false →
      sign ≠ calculateSignature mac appid sn ts nonce key →
      verifySignature mac a store now appid sn ts nonce sign
        = (some "invalid signature", addNonce store nonce now (a.timeWindowSec * 2))) ∧
    (goAbs (now - ts) ≤ a.timeWindowSec →
      goAbs (now₂ - ts) ≤ a.timeWindowSec →
      hasNonce store nonce = false →
      sign = calculateSignature mac appid sn ts nonce key →
      verifySignature mac a store now appid sn ts nonce sign
        = (none, addNonce store nonce now (a.timeWindowSec * 2)) ∧
      verifySignature mac a (addNonce store nonce now (a.timeWindowSec * 2)) now₂
          appid sn ts nonce sign
        = (some "nonce already used", addNonce store nonce now (a.timeWindowSec * 2))) := by
  refine ⟨fun hts => ?_, fun hts hfresh hbad => ?_, fun hts hts₂ hfresh hgood => ⟨?_, ?_⟩⟩
  · simp [verifySignature, verifyTimestamp, hkey, hts]
  · simp [verifySignature, verifyTimestamp, verifyNonce, hkey, not_lt.mpr hts, hfresh, hbad]
  · simp [verifySignature, verifyTimestamp, verifyNonce, hkey, not_lt.mpr hts, hfresh, hgood]
  · have hseen : hasNonce (addNonce store nonce now (a.timeWindowSec * 2)) nonce = true := by
      simp [hasNonce, addNonce]
    simp [verifySignature, verifyTimestamp, verifyNonce, hkey, not_lt.mpr hts₂, hseen]

/-- Witness for C2 at concrete inputs: an out-of-window tuple is rejected
with the timestamp error and the store is unchanged. -/
theorem auth_check_order_witness :
    verifySignature (fun _ _ => "m") ⟨[("A1", "K")], 300⟩ ⟨[]⟩ 1000 "A1" "SN1" 0 "n1" "sig"
      = (some "timestamp out of window", ⟨[]⟩) :=
  (auth_check_order (fun _ _ => "m") ⟨[("A1", "K")], 300⟩ ⟨[]⟩ 1000 0 0
    "A1" "SN1" "n1" "sig" "K" rfl).1 (by decide)

/-- Claim C8: with a known appid, a fresh nonce and a correct signature,
`VerifySignature` succeeds iff `|now - ts| ≤ time_window_sec`; the
boundary is accepted, and beyond it the tuple is rejected with
"timestamp out of window" (and the store is untouched). -/
theorem clock_window (mac : String → String → String) (a : Authenticator)
    (store : MemoryNonceStore) (now ts : Int) (appid sn nonce sign key : String)
    (hkey : alookup appid a.keys = some key)
    (hfresh : hasNonce store nonce = false)
    (hsig : sign = calculateSignature mac appid sn ts nonce key) :
    ((verifySignature mac a store now appid sn ts nonce sign).1 = none ↔
      |now - ts| ≤ a.timeWindowSec) ∧
    (|now - ts| = a.timeWindowSec →
      (verifySignature mac a store now appid sn ts nonce sign).1 = none) ∧
    (|now - ts| > a.timeWindowSec →
      verifySignature mac a store now appid sn ts nonce sign
        = (some "timestamp out of window", store)) := by
  refine ⟨⟨fun hok => ?_, fun hin => ?_⟩, fun hb => ?_, fun hout => ?_⟩
  · by_contra hgt
    rw [← goAbs_eq_abs] at hgt
    simp [verifySignature, verifyTimestamp, hkey, lt_of_not_le hgt] at hok
  · rw [← goAbs_eq_abs] at hin
    simp [verifySignature, verifyTimestamp, verifyNonce, hkey, not_lt.mpr hin, hfresh, hsig]
  · rw [← goAbs_eq_abs] at hb
    simp [verifySignature, verifyTimestamp, verifyNonce, hkey, not_lt.mpr (le_of_eq hb),
      hfresh, hsig]
  · rw [← goAbs_eq_abs] at hout
    simp [verifySignature, verifyTimestamp, hkey, hout]

/-- Witness for C8 at concrete inputs: the boundary offset
`|now - ts| = time_window_sec` is accepted. -/
theorem clock_window_witness :
    (verifySignature (fun k p => k ++ p) ⟨[("A1", "K")], 300⟩ ⟨[]⟩ 300 "A1" "SN1" 0 "n1"
      (calculateSignature (fun k p => k ++ p) "A1" "SN1" 0 "n1" "K")).1 = none :=
  (clock_window (fun k p => k ++ p) ⟨[("A1", "K")], 300⟩ ⟨[]⟩ 300 0 "A1" "SN1" "n1"
    (calculateSignature (fun k p => k ++ p) "A1" "SN1" 0 "n1" "K") "K"
    rfl rfl rfl).2.1 (by decide)

/-- Helper: decoding the four length bytes written for `n < 2^32`
recovers `n`. -/
theorem be32_roundtrip (n : Nat) (h : n < 2 ^ 32) :
    be32decode (n % 2 ^ 32 / 2 ^ 24 % 256) (n % 2 ^ 32 / 2 ^ 16 % 256)
      (n % 2 ^ 32 / 2 ^ 8 % 256) (n % 2 ^ 32 % 256) = n := by
  rw [Nat.mod_eq_of_lt h]
  simp only [be32decode]
  omega

/-- Claim C7: the codec round-trips every version-1 message whose frame
body (payload plus the two header bytes) fits in 1 MiB, and the decoder
rejects oversize declared lengths, bodies shorter than 2 bytes, and
version bytes other than 1. -/
theorem frame_codec (msg : Message)
    (hv : msg.version = 1) (ht : msg.type < 256)
    (hp : ∀ b ∈ msg.payload, b < 256)
    (hlen : 2 + msg.payload.length ≤ MaxMessageSize) :
    readMessage (writeMessage msg) = Except.ok msg ∧
    (∀ a b c d rest, be32decode a b c d > MaxMessageSize →
      isErr (readMessage (a :: b :: c :: d :: rest)) = true) ∧
    (∀ a b c d rest, be32decode a b c d < 2 →
      isErr (readMessage (a :: b :: c :: d :: rest)) = true) ∧
    (∀ a b c d v rest, 2 ≤ be32decode a b c d →
      be32decode a b c d ≤ MaxMessageSize →
      be32decode a b c d ≤ (v :: rest).length → v ≠ 1 →
      isErr (readMessage (a :: b :: c :: d :: v :: rest)) = true) := by
  refine ⟨?_, ?_, ?_, ?_⟩
  · have h32 : (msg.version :: msg.type :: msg.payload).length < 2 ^ 32 := by
      simp only [List.length_cons]
      simp only [MaxMessageSize] at hlen
      omega
    have hdec := be32_roundtrip (msg.version :: msg.type :: msg.payload).length h32
    simp only [writeMessage, be32encode, List.cons_append, List.nil_append, readMessage, hdec]
    have hmax : ¬ (msg.version :: msg.type :: msg.payload).length > MaxMessageSize := by
      simp only [List.length_cons, MaxMessageSize] at hlen ⊢
      omega
    rw [if_neg hmax]
    have hr : ¬ (msg.version :: msg.type :: msg.payload).length
        < (msg.version :: msg.type :: msg.payload).length := lt_irrefl _
    rw [if_neg hr]
    have h2 : ¬ (msg.version :: msg.type :: msg.payload).length < 2 := by
      simp only [List.length_cons]
      omega
    rw [if_neg h2, List.take_length]
    simp [hv]
    rw [← hv]
  · intro a b c d rest hbig
    simp only [readMessage]
    rw [if_pos hbig]
    rfl
  · intro a b c d rest hsmall
    simp only [readMessage]
    have hmax : ¬ be32decode a b c d > MaxMessageSize := by
      simp only [MaxMessageSize]
      omega
    rw [if_neg hmax]
    by_cases hr : rest.length < be32decode a b c d
    · rw [if_pos hr]
      rfl
    · rw [if_neg hr, if_pos hsmall]
      rfl
  · intro a b c d v rest h2 hmax hbytes hv1
    simp only [readMessage]
    rw [if_neg (not_lt.mpr hmax), if_neg (not_lt.mpr hbytes)]
    rw [if_neg (not_lt.mpr h2)]
    obtain ⟨m, hm⟩ : ∃ m, be32decode a b c d = m + 1 := by
      refine ⟨be32decode a b c d - 1, ?_⟩
      omega
    rw [hm, List.take_succ_cons]
    simp [List.getD, hv1, isErr]

/-- Witness for C7 at a concrete message: a 2-byte payload of type 6
round-trips. -/
theorem frame_codec_witness :
    readMessage (writeMessage ⟨1, 6, [10, 20]⟩) = Except.ok ⟨1, 6, [10, 20]⟩ :=
  (frame_codec ⟨1, 6, [10, 20]⟩ rfl (by decide) (by decide) (by decide)).1

/-! ### SessionManager helper lemmas -/

@[simp] theorem closeSession_sessions (sid : String) (st : SMState) :
    (closeSession sid st).sessions = st.sessions := by
  simp only [closeSession]
  split <;> rfl

@[simp] theorem closeSession_snToID (sid : String) (st : SMState) :
    (closeSession sid st).snToID = st.snToID := by
  simp only [closeSession]
  split <;> rfl

theorem mem_closeSession {x sid : String} {st : SMState} :
    x ∈ (closeSession sid st).closedIDs ↔ x = sid ∨ x ∈ st.closedIDs := by
  by_cases h : sid ∈ st.closedIDs
  · simp only [closeSession, if_pos h]
    constructor
    · exact Or.inr
    · rintro (rfl | hx)
      · exact h
      · exact hx
  · simp [closeSession, if_neg h, List.mem_cons]

theorem smAdd_sessions (s : Session) (st : SMState) :
    alookup s.id (smAdd s st).sessions = some s := by
  simp [smAdd]

theorem smAdd_snToID (s : Session) (st : SMState) (hs : ¬ s.sn = "") :
    (smAdd s st).snToID = ainsert s.sn s.id st.snToID := by
  cases h1 : alookup s.sn st.snToID with
  | none => simp only [smAdd, if_neg hs, h1]
  | some oldID =>
    cases h2 : alookup oldID st.sessions with
    | none => simp only [smAdd, if_neg hs, h1, h2]
    | some o => simp only [smAdd, if_neg hs, h1, h2, closeSession_snToID]

theorem smAdd_evict (s : Session) (st : SMState) (oldID : String) (o : Session)
    (hs : ¬ s.sn = "")
    (h1 : alookup s.sn st.snToID = some oldID)
    (h2 : alookup oldID st.sessions = some o) :
    smAdd s st = { sessions := ainsert s.id s (aremove oldID st.sessions),
                   snToID := ainsert s.sn s.id st.snToID,
                   closedIDs := (closeSession oldID st).closedIDs } := by
  simp only [smAdd, if_neg hs, h1, h2, closeSession_snToID]

theorem smAdd_closedIDs_cases (s : Session) (st : SMState) (x : String)
    (hmem : x ∈ (smAdd s st).closedIDs) :
    x ∈ st.closedIDs ∨ alookup s.sn st.snToID = some x := by
  by_cases hs : s.sn = ""
  · simp only [smAdd, if_pos hs] at hmem
    exact Or.inl hmem
  · cases h1 : alookup s.sn st.snToID with
    | none =>
      simp only [smAdd, if_neg hs, h1] at hmem
      exact Or.inl hmem
    | some oldID =>
      cases h2 : alookup oldID st.sessions with
      | none =>
        simp only [smAdd, if_neg hs, h1, h2] at hmem
        exact Or.inl hmem
      | some o =>
        simp only [smAdd, if_neg hs, h1, h2] at hmem
        rcases mem_closeSession.mp hmem with rfl | hx
        · exact Or.inr rfl
        · exact Or.inl hx

/-- The coupling invariant is preserved by `Add`. -/
theorem coupled_smAdd (s : Session) (st : SMState) (h : Coupled st) :
    Coupled (smAdd s st) := by
  intro sid t hlook hsn
  by_cases hs : s.sn = ""
  · simp only [smAdd, if_pos hs] at hlook ⊢
    by_cases hid : s.id = sid
    · subst hid
      rw [alookup_ainsert_self] at hlook
      cases hlook
      exact absurd hs hsn
    · rw [alookup_ainsert_ne hid] at hlook
      exact h sid t hlook hsn
  · rw [smAdd_snToID s st hs]
    cases h1 : alookup s.sn st.snToID with
    | none =>
      simp only [smAdd, if_neg hs, h1] at hlook
      by_cases hid : s.id = sid
      · subst hid
        rw [alookup_ainsert_self] at hlook
        cases hlook
        rw [alookup_ainsert_self]
      · rw [alookup_ainsert_ne hid] at hlook
        have hc := h sid t hlook hsn
        by_cases hsn2 : s.sn = t.sn
        · rw [← hsn2] at hc
          rw [h1] at hc
          cases hc
        · rw [alookup_ainsert_ne hsn2]
          exact hc
    | some oldID =>
      cases h2 : alookup oldID st.sessions with
      | none =>
        simp only [smAdd, if_neg hs, h1, h2] at hlook
        by_cases hid : s.id = sid
        · subst hid
          rw [alookup_ainsert_self] at hlook
          cases hlook
          rw [alookup_ainsert_self]
        · rw [alookup_ainsert_ne hid] at hlook
          have hc := h sid t hlook hsn
          by_cases hsn2 : s.sn = t.sn
          · rw [← hsn2, h1] at hc
            cases hc
            exact absurd hlook (by rw [h2]; intro hx; cases hx)
          · rw [alookup_ainsert_ne hsn2]
            exact hc
      | some o =>
        rw [smAdd_evict s st oldID o hs h1 h2] at hlook
        simp only at hlook
        by_cases hid : s.id = sid
        · subst hid
          rw [alookup_ainsert_self] at hlook
          cases hlook
          rw [alookup_ainsert_self]
        · rw [alookup_ainsert_ne hid] at hlook
          by_cases hold : oldID = sid
          · subst hold
            rw [alookup_aremove_self] at hlook
            cases hlook
          · rw [alookup_aremove_ne hold] at hlook
            have hc := h sid t hlook hsn
            by_cases hsn2 : s.sn = t.sn
            · rw [← hsn2, h1] at hc
              cases hc
              exact absurd rfl hold
            · rw [alookup_ainsert_ne hsn2]
              exact hc

/-- The coupling invariant is preserved by `Remove`. -/
theorem coupled_smRemove (sid₀ : String) (st : SMState) (h : Coupled st) :
    Coupled (smRemove sid₀ st) := by
  intro sid t hlook hsn
  cases h0 : alookup sid₀ st.sessions with
  | none =>
    simp only [smRemove, h0] at hlook ⊢
    exact h sid t hlook hsn
  | some s₀ =>
    by_cases hs0 : s₀.sn = ""
    · simp only [smRemove, h0, hs0, ne_eq, not_true_eq_false, if_false,
        closeSession_sessions, closeSession_snToID] at hlook ⊢
      by_cases hid : sid₀ = sid
      · subst hid
        rw [alookup_aremove_self] at hlook
        cases hlook
      · rw [alookup_aremove_ne hid] at hlook
        exact h sid t hlook hsn
    · simp only [smRemove, h0, hs0, ne_eq, not_false_eq_true, if_true,
        closeSession_sessions, closeSession_snToID] at hlook ⊢
      by_cases hid : sid₀ = sid
      · subst hid
        rw [alookup_aremove_self] at hlook
        cases hlook
      · rw [alookup_aremove_ne hid] at hlook
        have hc := h sid t hlook hsn
        by_cases hsn2 : s₀.sn = t.sn
        · have hc0 := h sid₀ s₀ h0 hs0
          rw [hsn2] at hc0
          rw [hc0] at hc
          cases hc
          exact absurd rfl hid
        · rw [alookup_aremove_ne hsn2]
          exact hc

/-- The coupling invariant is preserved by the expiry sweep. -/
theorem coupled_foldl_remove (ids : List String) :
    ∀ st : SMState, Coupled st →
      Coupled (ids.foldl (fun acc sid => smRemove sid acc) st) := by
  induction ids with
  | nil => intro st h; exact h
  | cons x rest ih =>
    intro st h
    exact ih (smRemove x st) (coupled_smRemove x st h)

/-- The coupling invariant is preserved by `Shutdown`. -/
theorem coupled_smShutdown (st : SMState) : Coupled (smShutdown st) := by
  intro sid t hlook hsn
  simp only [smShutdown, alookup_nil] at hlook
  cases hlook

/-- The coupling invariant is preserved by `Session.Close`. -/
theorem coupled_closeSession (sid₀ : String) (st : SMState) (h : Coupled st) :
    Coupled (closeSession sid₀ st) := by
  intro sid t hlook hsn
  rw [closeSession_sessions] at hlook
  rw [closeSession_snToID]
  exact h sid t hlook hsn

/-- Every reachable manager state satisfies the coupling invariant. -/
theorem coupled_reachable {st : SMState} (h : SMReachable st) : Coupled st := by
  induction h with
  | init => intro sid t hlook hsn; cases hlook
  | add s _ ih => exact coupled_smAdd s _ ih
  | remove sid _ ih => exact coupled_smRemove sid _ ih
  | cleanup timeout now _ ih => exact coupled_foldl_remove _ _ ih
  | close sid _ ih => exact coupled_closeSession sid _ ih
  | shutdown _ => exact coupled_smShutdown _

/-- Coupling forces at most one session per non-empty SN. -/
theorem atMostOne_of_coupled {st : SMState} (h : Coupled st) : AtMostOnePerSN st := by
  intro sid₁ s₁ sid₂ s₂ h1 h2 hsn hne
  have c1 := h sid₁ s₁ h1 (by rw [hsn]; exact hsn ▸ hne)
  have c2 := h sid₂ s₂ h2 (hsn ▸ hne)
  rw [hsn] at c1
  rw [c1] at c2
  cases c2
  rfl

/-- Claim C1: after `Add(A)` then `Add(B)` for two sessions with the same
non-empty SN, `GetBySN` returns `B` and not `A`, `A`'s close flag is set,
and every reachable manager state holds at most one session per SN. -/
theorem sn_uniqueness (A B : Session) (st : SMState)
    (hsn : A.sn = B.sn) (hne : A.sn ≠ "") (hid : A.id ≠ B.id)
    (hBfresh : B.id ∉ (smAdd A st).closedIDs) :
    smGetBySN B.sn (smAdd B (smAdd A st)) = some B ∧
    smGetBySN B.sn (smAdd B (smAdd A st)) ≠ some A ∧
    A.id ∈ (smAdd B (smAdd A st)).closedIDs ∧
    (∀ st', SMReachable st' → AtMostOnePerSN st') := by
  have hBsn : ¬ B.sn = "" := by
    rw [← hsn]
    exact hne
  have h1 : alookup B.sn (smAdd A st).snToID = some A.id := by
    rw [smAdd_snToID A st hne, ← hsn, alookup_ainsert_self]
  have h2 : alookup A.id (smAdd A st).sessions = some A := smAdd_sessions A st
  have hev := smAdd_evict B (smAdd A st) A.id A hBsn h1 h2
  have hnotmem : B.id ∉ (closeSession A.id (smAdd A st)).closedIDs := by
    rw [mem_closeSession]
    rintro (h | h)
    · exact hid h.symm
    · exact hBfresh h
  have hfirst : smGetBySN B.sn (smAdd B (smAdd A st)) = some B := by
    rw [hev]
    simp only [smGetBySN, alookup_ainsert_self, isClosed]
    simp [hnotmem]
  refine ⟨hfirst, ?_, ?_, ?_⟩
  · intro hEq
    rw [hfirst] at hEq
    injection hEq with hBA
    exact hid (by rw [hBA])
  · rw [hev]
    exact mem_closeSession.mpr (Or.inl rfl)
  · intro st' hre
    exact atMostOne_of_coupled (coupled_reachable hre)

/-- Witness for C1 at two concrete sessions added to the empty manager. -/
theorem sn_uniqueness_witness :
    smGetBySN "S" (smAdd ⟨"b", "S", "app", 0⟩ (smAdd ⟨"a", "S", "app", 0⟩ smEmpty))
      = some ⟨"b", "S", "app", 0⟩ ∧
    "a" ∈ (smAdd ⟨"b", "S", "app", 0⟩ (smAdd ⟨"a", "S", "app", 0⟩ smEmpty)).closedIDs :=
  have h := sn_uniqueness ⟨"a", "S", "app", 0⟩ ⟨"b", "S", "app", 0⟩ smEmpty
    rfl (by decide) (by decide) (by decide)
  ⟨h.1, h.2.2.1⟩

/-- Claim C10: a session whose close flag is set but which is still held
by the manager is reported by `GetOnlineDevices` (its SN is listed) while
`GetBySN` for that SN reports no session. -/
theorem closed_session_visibility (st : SMState) (s : Session)
    (h1 : alookup s.id st.sessions = some s)
    (h2 : alookup s.sn st.snToID = some s.id)
    (h3 : s.id ∈ st.closedIDs) :
    s.sn ∈ smGetOnlineDevices st ∧ smGetBySN s.sn st = none := by
  constructor
  · show s.sn ∈ st.snToID.map Prod.fst
    exact mem_keys_of_alookup h2
  · simp only [smGetBySN, h2, h1, isClosed]
    simp [h3]

/-- Witness for C10: a session closed in place after registration. -/
theorem closed_session_visibility_witness :
    "S" ∈ smGetOnlineDevices (closeSession "a" (smAdd ⟨"a", "S", "app", 0⟩ smEmpty)) ∧
    smGetBySN "S" (closeSession "a" (smAdd ⟨"a", "S", "app", 0⟩ smEmpty)) = none :=
  closed_session_visibility (closeSession "a" (smAdd ⟨"a", "S", "app", 0⟩ smEmpty))
    ⟨"a", "S", "app", 0⟩ (by decide) (by decide) (by decide)

/-- Claim C6 counterexample: after a read error the reader returns, but
the session is still present in both manager indexes (the reader path
never calls `SessionManager.Remove`), contradicting the claim that the
session is removed from both indexes. -/
theorem reader_exit_cex :
    (connIterReadErr ⟨"a", "S", "app", 0⟩ (smAdd ⟨"a", "S", "app", 0⟩ smEmpty)).2 = true ∧
    alookup "a" (connIterReadErr ⟨"a", "S", "app", 0⟩
      (smAdd ⟨"a", "S", "app", 0⟩ smEmpty)).1.sessions = some ⟨"a", "S", "app", 0⟩ ∧
    alookup "S" (connIterReadErr ⟨"a", "S", "app", 0⟩
      (smAdd ⟨"a", "S", "app", 0⟩ smEmpty)).1.snToID = some "a" := by
  decide

/-- Claim C6 amended: on any read error the reader returns and the
session's close flag is set (closing the connection), but the session
remains in both manager indexes; `GetBySN` stops returning it only
because it filters closed sessions. -/
theorem reader_exit_amended (s : Session) (sm : SMState)
    (h1 : alookup s.id sm.sessions = some s)
    (h2 : alookup s.sn sm.snToID = some s.id) :
    (connIterReadErr s sm).2 = true ∧
    s.id ∈ (connIterReadErr s sm).1.closedIDs ∧
    alookup s.id (connIterReadErr s sm).1.sessions = some s ∧
    alookup s.sn (connIterReadErr s sm).1.snToID = some s.id ∧
    smGetBySN s.sn (connIterReadErr s sm).1 = none := by
  simp only [connIterReadErr]
  refine ⟨trivial, mem_closeSession.mpr (Or.inl rfl), ?_, ?_, ?_⟩
  · rw [closeSession_sessions]
    exact h1
  · rw [closeSession_snToID]
    exact h2
  · simp only [smGetBySN, closeSession_snToID, closeSession_sessions, h2, h1, isClosed]
    simp [mem_closeSession]

/-- Witness for the amended C6 at a concrete registered session. -/
theorem reader_exit_amended_witness :
    "a" ∈ (connIterReadErr ⟨"a", "S", "app", 0⟩
      (smAdd ⟨"a", "S", "app", 0⟩ smEmpty)).1.closedIDs ∧
    smGetBySN "S" (connIterReadErr ⟨"a", "S", "app", 0⟩
      (smAdd ⟨"a", "S", "app", 0⟩ smEmpty)).1 = none :=
  have h := reader_exit_amended ⟨"a", "S", "app", 0⟩
    (smAdd ⟨"a", "S", "app", 0⟩ smEmpty) (by decide) (by decide)
  ⟨h.2.1, h.2.2.2.2⟩

/-- Claim C5 counterexample: an `Auth` frame that fails verification
(here: unknown appid) is answered with `AuthOK{false, reason}`, yet the
reader does not return — the connection stays open for further frames. -/
theorem auth_fail_cex :
    (connIterAuth (fun _ _ => "m") ⟨[], 300⟩ ⟨[]⟩ 0 ⟨"s1", "", "", 0⟩
      ⟨"A1", "SN1", 0, "n1", "sig", []⟩ smEmpty).authReply = ⟨false, "invalid appid"⟩ ∧
    (connIterAuth (fun _ _ => "m") ⟨[], 300⟩ ⟨[]⟩ 0 ⟨"s1", "", "", 0⟩
      ⟨"A1", "SN1", 0, "n1", "sig", []⟩ smEmpty).returns = false := by
  decide

/-- Claim C5 amended: for every Auth frame whose verification fails, the
handler replies `AuthOK{false, reason}`, the reader additionally sends an
`Err{500, "auth failed: " + reason}` frame, the session is never added to
the manager, and the reader keeps looping — the connection is not closed
by the server. -/
theorem auth_fail_amended (mac : String → String → String)
    (a : Authenticator) (store : MemoryNonceStore) (now : Int)
    (sess : Session) (auth : AuthMessage) (sm : SMState) (e : String)
    (hfail : (verifySignature mac a store now
      auth.appid auth.sn auth.ts auth.nonce auth.sign).1 = some e) :
    connIterAuth mac a store now sess auth sm =
      { authReply := ⟨false, e⟩
        errReply := some ⟨500, "auth failed: " ++ e⟩
        returns := false
        session := sess
        sm := sm
        store := (verifySignature mac a store now
          auth.appid auth.sn auth.ts auth.nonce auth.sign).2 } := by
  cases hv : verifySignature mac a store now auth.appid auth.sn auth.ts auth.nonce auth.sign with
  | mk err store' =>
    rw [hv] at hfail
    have herr : err = some e := hfail
    subst herr
    simp [connIterAuth, hv]

/-- Witness for the amended C5 at a concrete failing Auth frame. -/
theorem auth_fail_amended_witness :
    connIterAuth (fun _ _ => "m") ⟨[], 300⟩ ⟨[]⟩ 0 ⟨"s1", "", "", 0⟩
      ⟨"A1", "SN1", 0, "n1", "sig", []⟩ smEmpty =
      { authReply := ⟨false, "invalid appid"⟩
        errReply := some ⟨500, "auth failed: invalid appid"⟩
        returns := false
        session := ⟨"s1", "", "", 0⟩
        sm := smEmpty
        store := ⟨[]⟩ } :=
  auth_fail_amended (fun _ _ => "m") ⟨[], 300⟩ ⟨[]⟩ 0 ⟨"s1", "", "", 0⟩
    ⟨"A1", "SN1", 0, "n1", "sig", []⟩ smEmpty "invalid appid" rfl

/-! ### ACKWaiter helper lemmas -/

theorem alookup_aremove_some {κ : Type} [DecidableEq κ] {β : Type}
    {k k' : κ} {v : β} {l : List (κ × β)}
    (h : alookup k (aremove k' l) = some v) : alookup k l = some v := by
  by_cases hk : k' = k
  · subst hk
    rw [alookup_aremove_self] at h
    cases h
  · rwa [alookup_aremove_ne hk] at h

@[simp] theorem applyEvents_nil (st : AWState) : applyEvents st [] = st := rfl

theorem applyEvents_cons (st : AWState) (e : AWEvent) (es : List AWEvent) :
    applyEvents st (e :: es) = applyEvents (applyEvent st e) es := rfl

theorem notify_waiters (c' : String) (v : ACKMessage) (st : AWState) :
    (notify c' v st).waiters = st.waiters := by
  simp only [notify]
  cases alookup c' st.waiters with
  | none => rfl
  | some r' =>
    simp only [chanTrySend]
    cases alookup r' st.chans with
    | none => rfl
    | some ch =>
      by_cases hcl : ch.closed
      · simp [hcl]
      · cases hb : ch.buf <;> simp [hcl, hb]

theorem notify_chans_ne (c' : String) (v : ACKMessage) (st : AWState) (r : Nat)
    (h : ∀ r', alookup c' st.waiters = some r' → r' ≠ r) :
    alookup r (notify c' v st).chans = alookup r st.chans := by
  simp only [notify]
  cases hl : alookup c' st.waiters with
  | none => rfl
  | some r' =>
    have hne := h r' hl
    simp only [chanTrySend]
    cases alookup r' st.chans with
    | none => rfl
    | some ch =>
      by_cases hcl : ch.closed
      · simp [hcl]
      · cases hb : ch.buf
        · simp [hcl, hb, alookup_ainsert_ne hne]
        · simp [hcl, hb]

theorem notify_self_chans (c : String) (v : ACKMessage) (st : AWState) (r : Nat)
    (b : Option ACKMessage)
    (hw : alookup c st.waiters = some r)
    (hc : alookup r st.chans = some ⟨b, false⟩) :
    alookup r (notify c v st).chans =
      some ⟨(match b with | some w => some w | none => some v), false⟩ := by
  simp only [notify, hw, chanTrySend, hc]
  cases b with
  | none => simp
  | some w => simpa using hc

theorem chanClose_waiters (r : Nat) (st : AWState) :
    (chanClose r st).waiters = st.waiters := by
  simp only [chanClose]
  cases alookup r st.chans with
  | none => rfl
  | some ch =>
    by_cases hcl : ch.closed <;> simp [hcl]

theorem cancel_waiters_some (c' c : String) (r : Nat) (st : AWState)
    (h : alookup c (cancel c' st).waiters = some r) :
    alookup c st.waiters = some r := by
  simp only [cancel] at h
  cases hl : alookup c' st.waiters with
  | none =>
    rw [hl] at h
    exact h
  | some r' =>
    rw [hl] at h
    simp only at h
    exact alookup_aremove_some h

theorem cancel_waiters_ne (c' c : String) (st : AWState) (h : c' ≠ c) :
    alookup c (cancel c' st).waiters = alookup c st.waiters := by
  simp only [cancel]
  cases hl : alookup c' st.waiters with
  | none => rfl
  | some r' => simp [alookup_aremove_ne h]

theorem cancel_chans_ne (c' : String) (st : AWState) (r : Nat)
    (h : ∀ r', alookup c' st.waiters = some r' → r' ≠ r) :
    alookup r (cancel c' st).chans = alookup r st.chans := by
  simp only [cancel]
  cases hl : alookup c' st.waiters with
  | none => rfl
  | some r' =>
    have hne := h r' hl
    simp only [chanClose]
    cases alookup r' st.chans with
    | none => simp
    | some ch =>
      by_cases hcl : ch.closed
      · simp [hcl]
      · simp [hcl, alookup_ainsert_ne hne]

/-- Evolution of a registered waiter's channel under events that never
cancel it: the entry stays, foreign refs stay distinct, the channel
stays open, and its buffer holds the first notified value (once full it
never changes). -/
theorem awaiter_evolve (c : String) (r : Nat) (es : List AWEvent) :
    ∀ (st : AWState) (b : Option ACKMessage),
      alookup c st.waiters = some r →
      (∀ c' r', c' ≠ c → alookup c' st.waiters = some r' → r' ≠ r) →
      alookup r st.chans = some ⟨b, false⟩ →
      AWEvent.cancel c ∉ es →
      alookup c (applyEvents st es).waiters = some r ∧
      (∀ c' r', c' ≠ c → alookup c' (applyEvents st es).waiters = some r' → r' ≠ r) ∧
      alookup r (applyEvents st es).chans =
        some ⟨(match b with | some w => some w | none => firstNotifyFor c es), false⟩ := by
  induction es with
  | nil =>
    intro st b hw ho hc _
    refine ⟨hw, ho, ?_⟩
    cases b with
    | none => simpa [firstNotifyFor] using hc
    | some w => simpa using hc
  | cons e rest ih =>
    intro st b hw ho hc hnc
    have hnc' : AWEvent.cancel c ∉ rest := fun h => hnc (List.mem_cons_of_mem _ h)
    rw [applyEvents_cons]
    cases e with
    | notify c' v =>
      have hw' : alookup c (applyEvent st (AWEvent.notify c' v)).waiters = some r := by
        show alookup c (notify c' v st).waiters = some r
        rw [notify_waiters]
        exact hw
      have ho' : ∀ c'' r'', c'' ≠ c →
          alookup c'' (applyEvent st (AWEvent.notify c' v)).waiters = some r'' → r'' ≠ r := by
        intro c'' r'' hne hl
        rw [show (applyEvent st (AWEvent.notify c' v)).waiters = st.waiters from
          notify_waiters c' v st] at hl
        exact ho c'' r'' hne hl
      by_cases hcc : c' = c
      · subst hcc
        have hch := notify_self_chans c' v st r b hw hc
        cases b with
        | none =>
          have hres := ih (applyEvent st (AWEvent.notify c' v)) (some v) hw' ho' hch hnc'
          refine ⟨hres.1, hres.2.1, ?_⟩
          rw [hres.2.2]
          simp [firstNotifyFor]
        | some w =>
          have hres := ih (applyEvent st (AWEvent.notify c' v)) (some w) hw' ho' hch hnc'
          exact ⟨hres.1, hres.2.1, hres.2.2⟩
      · have hch : alookup r (applyEvent st (AWEvent.notify c' v)).chans = some ⟨b, false⟩ := by
          show alookup r (notify c' v st).chans = some ⟨b, false⟩
          rw [notify_chans_ne c' v st r (fun r' hl => ho c' r' hcc hl)]
          exact hc
        have hres := ih (applyEvent st (AWEvent.notify c' v)) b hw' ho' hch hnc'
        refine ⟨hres.1, hres.2.1, ?_⟩
        rw [hres.2.2]
        cases b <;> simp [firstNotifyFor, hcc]
    | cancel c' =>
      have hcc : c' ≠ c := by
        rintro rfl
        exact hnc (List.mem_cons_self _ _)
      have hw' : alookup c (applyEvent st (AWEvent.cancel c')).waiters = some r := by
        show alookup c (cancel c' st).waiters = some r
        rw [cancel_waiters_ne c' c st hcc]
        exact hw
      have ho' : ∀ c'' r'', c'' ≠ c →
          alookup c'' (applyEvent st (AWEvent.cancel c')).waiters = some r'' → r'' ≠ r := by
        intro c'' r'' hne hl
        exact ho c'' r'' hne (cancel_waiters_some c' c'' r'' st hl)
      have hch : alookup r (applyEvent st (AWEvent.cancel c')).chans = some ⟨b, false⟩ := by
        show alookup r (cancel c' st).chans = some ⟨b, false⟩
        rw [cancel_chans_ne c' st r (fun r' hl => ho c' r' hcc hl)]
        exact hc
      have hres := ih (applyEvent st (AWEvent.cancel c')) b hw' ho' hch hnc'
      refine ⟨hres.1, hres.2.1, ?_⟩
      rw [hres.2.2]
      cases b <;> simp [firstNotifyFor]

@[simp] theorem waitRegister_fst (c : String) (st : AWState) :
    (waitRegister c st).1 = st.nextRef := rfl

/-- Claim C3: with at most one waiter per cmd_id and no `Cancel` for it,
`Wait` returns exactly the value of the first `Notify` for that cmd_id
when one arrives before the deadline, returns the timeout error when none
does, and a `Notify` for a cmd_id with no registered waiter is a no-op. -/
theorem ack_correlation (st₀ : AWState) (c : String) (v : ACKMessage) (es : List AWEvent)
    (hwf : AWWF st₀)
    (hone : alookup c st₀.waiters = none)
    (hnc : AWEvent.cancel c ∉ es) :
    (firstNotifyFor c es = some v → (waitRun c st₀ es).1 = Except.ok (some v)) ∧
    (firstNotifyFor c es = none →
      (waitRun c st₀ es).1 = Except.error ("ack timeout for command " ++ c)) ∧
    (∀ (st : AWState) (a : ACKMessage),
      alookup c st.waiters = none → applyEvent st (AWEvent.notify c a) = st) := by
  have hw1 : alookup c (waitRegister c st₀).2.waiters = some st₀.nextRef := by
    simp [waitRegister]
  have ho1 : ∀ c' r', c' ≠ c →
      alookup c' (waitRegister c st₀).2.waiters = some r' → r' ≠ st₀.nextRef := by
    intro c' r' hne hl
    simp only [waitRegister] at hl
    rw [alookup_ainsert_ne (fun h => hne h.symm)] at hl
    exact Nat.ne_of_lt (hwf c' r' hl)
  have hc1 : alookup st₀.nextRef (waitRegister c st₀).2.chans = some ⟨none, false⟩ := by
    simp [waitRegister]
  have hev := awaiter_evolve c st₀.nextRef es (waitRegister c st₀).2 none hw1 ho1 hc1 hnc
  have hchan : alookup st₀.nextRef (applyEvents (waitRegister c st₀).2 es).chans
      = some ⟨firstNotifyFor c es, false⟩ := hev.2.2
  refine ⟨fun hfn => ?_, fun hfn => ?_, fun st a h => ?_⟩
  · rw [hfn] at hchan
    have hres : waitResolve (waitRegister c st₀).1 (applyEvents (waitRegister c st₀).2 es)
        = some (some v) := by
      show waitResolve st₀.nextRef (applyEvents (waitRegister c st₀).2 es) = some (some v)
      simp only [waitResolve, hchan]
    simp only [waitRun, hres]
  · rw [hfn] at hchan
    have hres : waitResolve (waitRegister c st₀).1 (applyEvents (waitRegister c st₀).2 es)
        = none := by
      show waitResolve st₀.nextRef (applyEvents (waitRegister c st₀).2 es) = none
      simp only [waitResolve, hchan]
      rfl
    simp only [waitRun, hres]
  · simp [applyEvent, notify, h]

/-- Witness for C3: a notify before the deadline delivers its value. -/
theorem ack_correlation_witness :
    (waitRun "c" awEmpty [AWEvent.notify "c" ⟨"c", "ok", "done"⟩]).1
      = Except.ok (some ⟨"c", "ok", "done"⟩) :=
  (ack_correlation awEmpty "c" ⟨"c", "ok", "done"⟩ [AWEvent.notify "c" ⟨"c", "ok", "done"⟩]
    (fun c' r' h => nomatch h) rfl (by decide)).1 (by decide)

/-- Claim C9: a `Cancel` racing a blocked `Wait` closes the channel, the
closed channel delivers its zero value, and `Wait` returns a nil ACK with
a nil error (`Except.ok none`), not a timeout error. -/
theorem cancel_unblocks_nil (st₀ : AWState) (c : String) :
    (waitRun c st₀ [AWEvent.cancel c]).1 = Except.ok none := by
  have hw : alookup c (waitRegister c st₀).2.waiters = some st₀.nextRef := by
    simp [waitRegister]
  have hc : alookup st₀.nextRef (waitRegister c st₀).2.chans = some ⟨none, false⟩ := by
    simp [waitRegister]
  have hstep : applyEvents (waitRegister c st₀).2 [AWEvent.cancel c]
      = { chanClose st₀.nextRef (waitRegister c st₀).2 with
          waiters := aremove c (waitRegister c st₀).2.waiters } := by
    simp [applyEvents, applyEvent, cancel, hw]
  have hchan : alookup st₀.nextRef
      (applyEvents (waitRegister c st₀).2 [AWEvent.cancel c]).chans = some ⟨none, true⟩ := by
    rw [hstep]
    simp [chanClose, hc]
  have hres : waitResolve (waitRegister c st₀).1
      (applyEvents (waitRegister c st₀).2 [AWEvent.cancel c]) = some none := by
    show waitResolve st₀.nextRef (applyEvents (waitRegister c st₀).2 [AWEvent.cancel c])
      = some none
    simp [waitResolve, hchan]
  simp only [waitRun, hres]

/-- Claim C4 counterexample: `Cancel` on a pending waiter followed by
`Wait`'s exit path closes the channel twice — before the exit no panic
has occurred, and the exit's `close` panics (close of closed channel). -/
theorem ack_double_close_cex :
    (applyEvent (waitRegister "c" awEmpty).2 (AWEvent.cancel "c")).panicked = false ∧
    (waitExit "c" (waitRegister "c" awEmpty).1
      (applyEvent (waitRegister "c" awEmpty).2 (AWEvent.cancel "c"))).panicked = true := by
  decide

/-- One notify step preserves channel openness, the panic flag and the
waiter table. -/
theorem openW_notify (st : AWState) (c' : String) (v : ACKMessage) (h : OpenW st) :
    OpenW (applyEvent st (AWEvent.notify c' v)) ∧
    (applyEvent st (AWEvent.notify c' v)).panicked = st.panicked ∧
    (applyEvent st (AWEvent.notify c' v)).waiters = st.waiters := by
  refine ⟨?_, ?_, notify_waiters c' v st⟩
  · intro c'' r'' hl
    rw [show (applyEvent st (AWEvent.notify c' v)).waiters = st.waiters from
      notify_waiters c' v st] at hl
    obtain ⟨b'', hb''⟩ := h c'' r'' hl
    show ∃ b, alookup r'' (notify c' v st).chans = some ⟨b, false⟩
    simp only [notify]
    cases hl' : alookup c' st.waiters with
    | none => exact ⟨b'', hb''⟩
    | some r' =>
      obtain ⟨b', hb'⟩ := h c' r' hl'
      simp only [chanTrySend, hb']
      cases b' with
      | some w => exact ⟨b'', hb''⟩
      | none =>
        by_cases hr : r' = r''
        · subst hr
          exact ⟨some v, by simp⟩
        · exact ⟨b'', by simpa [alookup_ainsert_ne hr] using hb''⟩
  · show (notify c' v st).panicked = st.panicked
    simp only [notify]
    cases hl' : alookup c' st.waiters with
    | none => rfl
    | some r' =>
      obtain ⟨b', hb'⟩ := h c' r' hl'
      simp only [chanTrySend, hb']
      cases b' <;> simp

/-- Notify-only event lists preserve channel openness, the panic flag and
the waiter table. -/
theorem openW_events (es : List AWEvent) :
    notifyOnly es = true → ∀ st : AWState, OpenW st →
      OpenW (applyEvents st es) ∧
      (applyEvents st es).panicked = st.panicked ∧
      (applyEvents st es).waiters = st.waiters := by
  induction es with
  | nil => intro _ st h; exact ⟨h, rfl, rfl⟩
  | cons e rest ih =>
    intro h3 st h
    cases e with
    | notify c' v =>
      have hstep := openW_notify st c' v h
      have hr := ih (by simpa [notifyOnly] using h3) (applyEvent st (AWEvent.notify c' v)) hstep.1
      rw [applyEvents_cons]
      exact ⟨hr.1, by rw [hr.2.1, hstep.2.1], by rw [hr.2.2, hstep.2.2]⟩
    | cancel c' => simp [notifyOnly] at h3

/-- Claim C4 amended: on every return path the slot is removed from the
waiter table, and in the gateway as wired — where `Cancel` is never
invoked — the channel is closed exactly once, by `Wait`'s exit path,
with no panic; a `Cancel` racing `Wait`'s exit double-closes (see the
counterexample). -/
theorem ack_slot_amended (st₀ : AWState) (c : String) (es : List AWEvent)
    (h1 : OpenW st₀) (h2 : st₀.panicked = false) (h3 : notifyOnly es = true) :
    alookup c ((waitRun c st₀ es).2).waiters = none ∧
    (∃ b, alookup st₀.nextRef ((waitRun c st₀ es).2).chans = some ⟨b, true⟩) ∧
    ((waitRun c st₀ es).2).panicked = false ∧
    (∀ (st' : AWState) (es' : List AWEvent),
      alookup c ((waitRun c st' es').2).waiters = none) := by
  have hreg : OpenW (waitRegister c st₀).2 := by
    intro c' r' hl
    simp only [waitRegister] at hl ⊢
    by_cases hcc : c = c'
    · subst hcc
      rw [alookup_ainsert_self] at hl
      cases hl
      exact ⟨none, by rw [alookup_ainsert_self]⟩
    · rw [alookup_ainsert_ne hcc] at hl
      obtain ⟨b', hb'⟩ := h1 c' r' hl
      by_cases hr : st₀.nextRef = r'
      · subst hr
        exact ⟨none, by rw [alookup_ainsert_self]⟩
      · exact ⟨b', by rw [alookup_ainsert_ne hr]; exact hb'⟩
  have hw1 : alookup c (waitRegister c st₀).2.waiters = some st₀.nextRef := by
    simp [waitRegister]
  have hev := openW_events es h3 (waitRegister c st₀).2 hreg
  have hw2 : alookup c (applyEvents (waitRegister c st₀).2 es).waiters = some st₀.nextRef := by
    rw [hev.2.2]
    exact hw1
  obtain ⟨b, hb⟩ := hev.1 c st₀.nextRef hw2
  have hp2 : (applyEvents (waitRegister c st₀).2 es).panicked = false := by
    rw [hev.2.1]
    exact h2
  refine ⟨?_, ⟨b, ?_⟩, ?_, ?_⟩
  · show alookup c (waitExit c (waitRegister c st₀).1
      (applyEvents (waitRegister c st₀).2 es)).waiters = none
    simp only [waitExit, chanClose_waiters]
    exact alookup_aremove_self
  · show alookup st₀.nextRef (waitExit c (waitRegister c st₀).1
      (applyEvents (waitRegister c st₀).2 es)).chans = some ⟨b, true⟩
    simp only [waitExit, waitRegister_fst, chanClose, hb]
    simp
  · show (waitExit c (waitRegister c st₀).1
      (applyEvents (waitRegister c st₀).2 es)).panicked = false
    simp only [waitExit, waitRegister_fst, chanClose, hb]
    simpa using hp2
  · intro st' es'
    show alookup c (waitExit c (waitRegister c st').1
      (applyEvents (waitRegister c st').2 es')).waiters = none
    simp only [waitExit, chanClose_waiters]
    exact alookup_aremove_self

/-- Witness for the amended C4 starting from the empty waiter. -/
theorem ack_slot_amended_witness :
    alookup "c" ((waitRun "c" awEmpty []).2).waiters = none ∧
    ((waitRun "c" awEmpty []).2).panicked = false :=
  have h := ack_slot_amended awEmpty "c" [] (fun c' r' h => nomatch h) rfl rfl
  ⟨h.1, h.2.2.1⟩

end DeviceAgent
